import Mathlib

/-!
Verification of `runpod/serverless/utils/rp_download.py`.

The module has two entry points:
* `download_files_from_urls(job_id, urls)` — concurrent batch download with
  per-URL retry (backoff, `max_tries=3`), order-preserving results;
* `file(file_url)` — single download, naming from the `Content-Disposition`
  header or the URL path, conditional zip extraction.

We shallowly embed the module.  Network nondeterminism is an oracle giving the
outcome of each attempted HTTP GET (`none` = transport-level
`RequestException`, `some r` = a response with status, headers and body).
Filesystem writes are recorded as explicit effect lists; `uuid.uuid4()` values
are oracle parameters.  `ThreadPoolExecutor.map` is documented to yield results
in input order, so the batch is embedded as an index-aware map.

Path arithmetic (`os.path.splitext/join/basename/abspath`, `posixpath.normpath`)
and URL parsing (`urllib.parse.urlparse(...).path`) are translated from the
CPython implementations they invoke, over `List Char`.
-/

/-- Bytes of a response body. -/
abbrev Bytes := List Nat

/-- The fields of a `requests` response that the module reads: the status code
(`raise_for_status`), the `Content-Disposition` header (absent = `None`), and
the body `content`. -/
structure Response where
  status : Nat
  contentDisposition : Option String
  content : Bytes
deriving Repr, DecidableEq

/-! ## CPython path helpers (posixpath) -/

/-- Index of the last occurrence of `c` in `l`, or `-1` — Python `str.rfind`. -/
def lastIdxAux (c : Char) : List Char → Nat → Int → Int
  | [], _, acc => acc
  | x :: xs, i, acc => lastIdxAux c xs (i + 1) (if x = c then (i : Int) else acc)

/-- Python `p.rfind(c)`. -/
def lastIdx (l : List Char) (c : Char) : Int := lastIdxAux c l 0 (-1)

/-- Index of the first occurrence of `c` in `l` — Python `str.find`, as `Option`. -/
def firstIdxNat : List Char → Char → Option Nat
  | [], _ => none
  | x :: xs, c => if x = c then some 0 else (firstIdxNat xs c).map (· + 1)

/-- Python `str.find(c, start)`: first occurrence at index `≥ start`, or `-1`. -/
def findFrom (l : List Char) (c : Char) (start : Nat) : Int :=
  match firstIdxNat (l.drop start) c with
  | some i => (start + i : Nat)
  | none => -1

/-- `posixpath.splitext` (via `genericpath._splitext` with `sep='/'`,
`extsep='.'`): split off the extension at the last dot of the basename, except
that leading dots of the basename do not start an extension. -/
def splitextChars (p : List Char) : List Char × List Char :=
  let sepIndex := lastIdx p '/'
  let dotIndex := lastIdx p '.'
  if dotIndex > sepIndex then
    -- skip all leading dots of the basename
    let base := (p.drop (sepIndex + 1).toNat).take (dotIndex - sepIndex - 1).toNat
    if base.any (fun c => c ≠ '.') then
      (p.take dotIndex.toNat, p.drop dotIndex.toNat)
    else (p, [])
  else (p, [])

/-- `os.path.splitext` on strings. -/
def os_path_splitext (p : String) : String × String :=
  let r := splitextChars p.data
  (String.mk r.1, String.mk r.2)

/-- `posixpath.basename`: `p[p.rfind('/') + 1:]`. -/
def basenameChars (p : List Char) : List Char := p.drop ((lastIdx p '/') + 1).toNat

/-- `os.path.basename` on strings. -/
def os_path_basename (p : String) : String := String.mk (basenameChars p.data)

/-- `posixpath.join` for two components: if `b` is absolute it replaces `a`;
otherwise it is appended with a `/` unless `a` is empty or already ends in `/`. -/
def os_path_join (a b : String) : String :=
  if b.data.head? = some '/' then b
  else if a.data = [] ∨ a.data.getLast? = some '/' then a ++ b
  else a ++ "/" ++ b

/-- Split `l` at every occurrence of `c` — Python `str.split(c)`. -/
def splitOnCharAux (c : Char) : List Char → List Char → List (List Char)
  | [], acc => [acc.reverse]
  | x :: xs, acc =>
    if x = c then acc.reverse :: splitOnCharAux c xs [] else splitOnCharAux c xs (x :: acc)

/-- Python `str.split(c)`. -/
def splitOnChar (l : List Char) (c : Char) : List (List Char) := splitOnCharAux c l []

/-- One step of `posixpath.normpath`'s component loop. -/
def normpathStep (initialSlashes : Nat) (acc : List (List Char)) (comp : List Char) :
    List (List Char) :=
  if comp = [] ∨ comp = ['.'] then acc
  else if comp ≠ ['.', '.'] ∨ (initialSlashes = 0 ∧ acc = []) ∨
      (acc ≠ [] ∧ acc.getLast? = some ['.', '.']) then
    acc ++ [comp]
  else acc.dropLast

/-- `posixpath.normpath`: collapse repeated separators and `.`/`..` components.
Two leading slashes are preserved (POSIX), three or more collapse to one. -/
def normpathChars (p : List Char) : List Char :=
  if p = [] then ['.']
  else
    let initialSlashes : Nat :=
      if p.head? = some '/' then
        if p.take 2 = ['/', '/'] ∧ p.take 3 ≠ ['/', '/', '/'] then 2 else 1
      else 0
    let comps := splitOnChar p '/'
    let newComps := comps.foldl (normpathStep initialSlashes) []
    let joined := List.intercalate ['/'] newComps
    let res := List.replicate initialSlashes '/' ++ joined
    if res = [] then ['.'] else res

/-- `os.path.abspath` relative to the process working directory `cwd`:
`normpath(path if isabs(path) else join(cwd, path))`. -/
def os_path_abspath (cwd p : String) : String :=
  if p.data.head? = some '/' then String.mk (normpathChars p.data)
  else String.mk (normpathChars (os_path_join cwd p).data)

/-- Python truth of absoluteness of a POSIX path (`posixpath.isabs`). -/
def isAbs (s : String) : Bool := s.data.head? = some '/'

/-! ## `email.message_from_string` header items (batch-mode filename parsing)

`download_file` builds the string `f'Content-Disposition: {content_disposition}'`,
parses it with `email.message_from_string`, and takes `dict(msg.items())`.
`msg.items()` yields `(header_name, header_value)` pairs — header *names*, not
`Content-Disposition` *parameters*.  We embed the header-block parse: each
`Name: value` line is one item (value with leading whitespace stripped,
continuation lines folded in); a line without a colon ends the header block. -/

/-- Strip one trailing `'\r'` (the parser splits on universal newlines). -/
def stripCr (l : List Char) : List Char :=
  if l.getLast? = some '\r' then l.dropLast else l

/-- Leading spaces and tabs removed. -/
def lstripWs (l : List Char) : List Char := l.dropWhile (fun c => c = ' ' ∨ c = '\t')

/-- Header items of an RFC-2822 header block, given its lines.  `cur` is the
header currently being folded. -/
def headerItemsAux : Option (List Char × List Char) → List (List Char) →
    List (List Char × List Char)
  | cur, [] => cur.toList
  | cur, line :: rest =>
    if line.head? = some ' ' ∨ line.head? = some '\t' then
      match cur with
      | some nv => headerItemsAux (some (nv.1, nv.2 ++ '\n' :: line)) rest
      | none => headerItemsAux none rest
    else
      match firstIdxNat line ':' with
      | some i =>
        cur.toList ++ headerItemsAux (some (line.take i, lstripWs (line.drop (i + 1)))) rest
      | none => cur.toList

/-- `dict(message_from_string(s).items())` as an association list (later
duplicates overwrite earlier ones, as in a Python `dict`). -/
def messageItems (s : String) : List (List Char × List Char) :=
  headerItemsAux none ((splitOnChar s.data '\n').map stripCr)

/-- Python `dict(items).get(k, d)`: the value of the *last* binding of `k`. -/
def dictGet (items : List (List Char × List Char)) (k : List Char) (d : List Char) :
    List Char :=
  match items.reverse.find? (fun p => p.1 = k) with
  | some p => p.2
  | none => d

/-- Extension computed by the batch `download_file` from the
`Content-Disposition` header:
`params = dict(msg.items()) if content_disposition else {}` followed by
`os.path.splitext(params.get('filename', ''))[1]`.  (An absent header and the
empty string are both falsy, so both give `params = {}`.) -/
def batchFileExtension (contentDisposition : Option String) : String :=
  let params : List (List Char × List Char) :=
    match contentDisposition with
    | some cd => if cd = "" then [] else messageItems ("Content-Disposition: " ++ cd)
    | none => []
  String.mk (splitextChars (dictGet params "filename".data [])).2

/-! ## Batch mode: `download_files_from_urls` -/

/-- Result of `requests.get(url, timeout=5)` followed by
`response.raise_for_status()` on attempt `k`: `none` when the GET raised a
transport `RequestException`, and `raise_for_status` raises `HTTPError` (also a
`RequestException`) exactly when `400 <= status < 600`. -/
def attemptOutcome (netU : Nat → Option Response) (k : Nat) : Option Response :=
  match netU k with
  | none => none
  | some r => if 400 ≤ r.status ∧ r.status < 600 then none else some r

/-- `backoff.on_exception(..., max_tries=3)`: attempts run in order `0, 1, 2`;
the first non-raising attempt wins; after three raising attempts the last
exception propagates.  Returns the winning attempt's index and response. -/
def firstSuccess (netU : Nat → Option Response) : Option (Nat × Response) :=
  match attemptOutcome netU 0 with
  | some r => some (0, r)
  | none =>
    match attemptOutcome netU 1 with
    | some r => some (1, r)
    | none =>
      match attemptOutcome netU 2 with
      | some r => some (2, r)
      | none => none

/-- The inner `download_file(url)`: on success, the pair
`(response.content, file_extension)`; `none` when all three attempts raised. -/
def download_file (netU : Nat → Option Response) : Option (Bytes × String) :=
  (firstSuccess netU).map fun kr => (kr.2.content, batchFileExtension kr.2.contentDisposition)

/-- Number of HTTP GETs issued for one slot's URL. -/
def requestCount (netU : Nat → Option Response) : Nat :=
  match firstSuccess netU with
  | some kr => kr.1 + 1
  | none => 3

/-- Observable outcome of `download_file_to_path` for one slot: its returned
value (`None` or an absolute path), the files it wrote, and the number of HTTP
GETs it issued. -/
structure SlotOutcome where
  result : Option String
  writes : List (String × Bytes)
  requests : Nat
deriving Repr, DecidableEq

/-- `download_file_to_path(url)`: a `None` slot returns `None` with no request;
a failed download (all retries exhausted) logs and returns `None` with no file
written; on success the body is written to `download_directory/<uuid><ext>` and
the absolute path is returned. -/
def download_file_to_path (cwd download_directory uuid : String)
    (netU : Nat → Option Response) (url : Option String) : SlotOutcome :=
  match url with
  | none => { result := none, writes := [], requests := 0 }
  | some _ =>
    match download_file netU with
    | none => { result := none, writes := [], requests := 3 }
    | some be =>
      let file_name := uuid ++ be.2
      let output_file_path := os_path_join download_directory file_name
      { result := some (os_path_abspath cwd output_file_path)
        writes := [(output_file_path, be.1)]
        requests := requestCount netU }

/-- `os.path.abspath(os.path.join('jobs', job_id, 'downloaded_files'))`. -/
def downloadDirectory (cwd job_id : String) : String :=
  os_path_abspath cwd (os_path_join (os_path_join "jobs" job_id) "downloaded_files")

/-- The `urls` argument is `Union[str, List[str]]`; batch entries may be `None`. -/
inductive UrlsArg where
  | str (s : String)
  | list (l : List (Option String))

/-- `if isinstance(urls, str): urls = [urls]`. -/
def normalizeUrls : UrlsArg → List (Option String)
  | .str s => [some s]
  | .list l => l

/-- `executor.map(download_file_to_path, urls)` with per-slot network and uuid
oracles (`net i` is slot `i`'s sequence of attempt outcomes); `ThreadPoolExecutor.map`
yields results in input order, so the fan-out is an index-aware map. -/
def batchSlotsAux (cwd dir : String) (net : Nat → Nat → Option Response)
    (uuid : Nat → String) : Nat → List (Option String) → List SlotOutcome
  | _, [] => []
  | i, u :: us =>
    download_file_to_path cwd dir (uuid i) (net i) u :: batchSlotsAux cwd dir net uuid (i + 1) us

/-- All slot outcomes of one `download_files_from_urls` call. -/
def batchSlots (cwd : String) (net : Nat → Nat → Option Response) (uuid : Nat → String)
    (job_id : String) (urls : UrlsArg) : List SlotOutcome :=
  batchSlotsAux cwd (downloadDirectory cwd job_id) net uuid 0 (normalizeUrls urls)

/-- `download_files_from_urls(job_id, urls)`: the returned list. -/
def download_files_from_urls (cwd : String) (net : Nat → Nat → Option Response)
    (uuid : Nat → String) (job_id : String) (urls : UrlsArg) : List (Option String) :=
  (batchSlots cwd net uuid job_id urls).map SlotOutcome.result

/-! ## `urllib.parse.urlparse(url).path`

Translated from CPython `urllib/parse.py`: strip unsafe bytes, split the
scheme (all scheme characters before the first `:`, unless the remainder is a
bare port number), split the netloc after `//` up to the next `/`, `?` or `#`,
split fragment then query at their first occurrence, and finally split `;params`
off the last path segment when the scheme uses parameters. -/

/-- Characters allowed in a URL scheme (`scheme_chars`). -/
def isSchemeChar (c : Char) : Bool := c.isAlphanum || c = '+' || c = '-' || c = '.'

/-- `_UNSAFE_URL_BYTES_TO_REMOVE` (`'\t'`, `'\r'`, `'\n'`) are removed, after
stripping leading C0-control/space characters. -/
def sanitizeUrl (l : List Char) : List Char :=
  (l.dropWhile (fun c => c.val ≤ 32)).filter (fun c => c ≠ '\t' ∧ c ≠ '\r' ∧ c ≠ '\n')

/-- Scheme split: on `i = url.find(':')` with `i > 0`, all of `url[:i]` scheme
characters, and `url[i+1:]` empty or not all digits, the scheme is `url[:i]`
lowercased and the rest follows the colon. -/
def splitScheme (l : List Char) : List Char × List Char :=
  match firstIdxNat l ':' with
  | some i =>
    if 0 < i ∧ (l.take i).all isSchemeChar ∧
        ((l.drop (i + 1)) = [] ∨ ¬ (l.drop (i + 1)).all Char.isDigit) then
      ((l.take i).map Char.toLower, l.drop (i + 1))
    else ([], l)
  | none => ([], l)

/-- First index of `'/'`, `'?'` or `'#'` in `l`. -/
def firstDelim : List Char → Option Nat
  | [] => none
  | c :: cs =>
    if c = '/' ∨ c = '?' ∨ c = '#' then some 0 else (firstDelim cs).map (· + 1)

/-- `_splitnetloc(url, 2)` keeping the part after the netloc: with `url`
starting in `//`, drop through the next `/`, `?` or `#` (exclusive). -/
def dropNetloc (l : List Char) : List Char :=
  let afterTwo := l.drop 2
  match firstDelim afterTwo with
  | some j => afterTwo.drop j
  | none => []

/-- Everything before the first occurrence of `c` — `url.split(c, 1)[0]`. -/
def takeUntilChar (l : List Char) (c : Char) : List Char :=
  match firstIdxNat l c with
  | some i => l.take i
  | none => l

/-- `urllib.parse.uses_params`. -/
def usesParams : List (List Char) :=
  ["", "ftp", "hdl", "prospero", "http", "imap", "https", "shttp", "rtsp",
   "rtspu", "sip", "sips", "mms", "sftp", "tel"].map String.data

/-- `_splitparams(url)`: params start at the first `;` of the last `/`-segment
(of the whole string when it has no `/`); nothing is split when there is none. -/
def splitParamsChars (u : List Char) : List Char :=
  let i : Int :=
    if '/' ∈ u then findFrom u ';' (lastIdx u '/').toNat
    else
      match firstIdxNat u ';' with
      | some j => (j : Int)
      | none => -1
  if i < 0 then u else u.take i.toNat

/-- `urlparse(url).path`. -/
def urlparsePathChars (url : List Char) : List Char :=
  let l := sanitizeUrl url
  let sr := splitScheme l
  let afterNetloc := if sr.2.take 2 = ['/', '/'] then dropNetloc sr.2 else sr.2
  let beforeFrag := takeUntilChar afterNetloc '#'
  let path := takeUntilChar beforeFrag '?'
  if sr.1 ∈ usesParams ∧ ';' ∈ path then splitParamsChars path else path

/-- `urlparse(file_url).path` on strings. -/
def urlparsePath (url : String) : String := String.mk (urlparsePathChars url.data)

/-! ## `re.findall("filename=(.+)", s)` (single-fetch filename extraction)

`file()` takes the first match.  The regex engine matches `filename=` at the
leftmost position where at least one non-newline character follows, and `(.+)`
greedily captures every following character up to the next newline or the end
of the string.  We embed the first match directly (`findall(...)[0]`, with
`none` for an empty match list). -/

/-- The literal part of the pattern. -/
def fnPat : List Char := "filename=".data

/-- Greedy `(.+)` capture: the run of non-newline characters at the front. -/
def takeCapture : List Char → List Char
  | [] => []
  | c :: cs => if c = '\n' then [] else c :: takeCapture cs

/-- First match of `filename=(.+)`: scan left to right; at each position where
the literal matches and is followed by a non-newline character, capture
greedily; otherwise advance one character. -/
def firstFilenameMatch : List Char → Option (List Char)
  | [] => none
  | c :: cs =>
    if fnPat.isPrefixOf (c :: cs) then
      let rest := (c :: cs).drop fnPat.length
      match rest.head? with
      | some h => if h = '\n' then firstFilenameMatch cs else some (takeCapture rest)
      | none => firstFilenameMatch cs
    else firstFilenameMatch cs

/-! ## Single mode: `file(file_url)` -/

/-- The record returned by `file()`. -/
structure FileResult where
  file_path : String
  type : String
  original_name : String
  extracted_path : Option String
deriving Repr, DecidableEq

deriving instance DecidableEq for Except

/-- Observable outcome of one `file(file_url)` call: the returned record (or a
propagated exception, `Except.error ()`), the GETs issued and the files
written. -/
structure SingleRun where
  result : Except Unit FileResult
  requests : List String
  writes : List (String × Bytes)
deriving Repr, DecidableEq

/-- `str.replace('.', '')`: every dot removed. -/
def removeDots (s : String) : String := String.mk (s.data.filter (fun c => c ≠ '.'))

/-- The `original_file_name` computed by `file()`: the first
`re.findall("filename=(.+)", header)` match when the `Content-Disposition`
header is present and the list is non-empty, else
`os.path.basename(urlparse(file_url).path)`. -/
def singleOriginalName (contentDisposition : Option String) (file_url : String) : String :=
  match contentDisposition with
  | some cd =>
    match firstFilenameMatch cd.data with
    | some m => String.mk m
    | none => os_path_basename (urlparsePath file_url)
  | none => os_path_basename (urlparsePath file_url)

/-- `file(file_url)`.  `net` is the outcome of the single
`requests.get(file_url, timeout=30)` (`none` = transport exception, which
propagates: there is no retry and no `raise_for_status`, so the status code is
never consulted).  `zipValid content` tells whether `zipfile.ZipFile` accepts
the body (a corrupt archive raises, after the file was already written). -/
def fileImpl (cwd uuid : String) (net : Option Response) (zipValid : Bytes → Bool)
    (file_url : String) : SingleRun :=
  match net with
  | none => { result := .error (), requests := [file_url], writes := [] }
  | some resp =>
    let original_file_name := singleOriginalName resp.contentDisposition file_url
    let file_type := removeDots (os_path_splitext original_file_name).2
    let output_file_path := os_path_join "job_files" (uuid ++ "." ++ file_type)
    let writes := [(output_file_path, resp.content)]
    if file_type = "zip" then
      if zipValid resp.content then
        { result := .ok
            { file_path := os_path_abspath cwd output_file_path
              type := file_type
              original_name := original_file_name
              extracted_path := some (os_path_abspath cwd (os_path_join "job_files" uuid)) }
          requests := [file_url]
          writes := writes }
      else { result := .error (), requests := [file_url], writes := writes }
    else
      { result := .ok
          { file_path := os_path_abspath cwd output_file_path
            type := file_type
            original_name := original_file_name
            extracted_path := none }
        requests := [file_url]
        writes := writes }

/-! ## Supporting lemmas -/

theorem batchSlotsAux_length (cwd dir : String) (net : Nat → Nat → Option Response)
    (uuid : Nat → String) :
    ∀ (us : List (Option String)) (k : Nat),
      (batchSlotsAux cwd dir net uuid k us).length = us.length := by
  intro us
  induction us with
  | nil => intro k; rfl
  | cons u us ih => intro k; simpa [batchSlotsAux] using ih (k + 1)

theorem batchSlotsAux_getElem? (cwd dir : String) (net : Nat → Nat → Option Response)
    (uuid : Nat → String) :
    ∀ (us : List (Option String)) (k j : Nat) (hj : j < us.length),
      (batchSlotsAux cwd dir net uuid k us)[j]? =
        some (download_file_to_path cwd dir (uuid (k + j)) (net (k + j)) (us.get ⟨j, hj⟩)) := by
  intro us
  induction us with
  | nil => intro k j hj; simp at hj
  | cons u us ih =>
    intro k j hj
    cases j with
    | zero => simp [batchSlotsAux]
    | succ j =>
      have hj' : j < us.length := by simpa using hj
      have heq : k + (j + 1) = (k + 1) + j := by omega
      rw [show batchSlotsAux cwd dir net uuid k (u :: us) =
            download_file_to_path cwd dir (uuid k) (net k) u ::
              batchSlotsAux cwd dir net uuid (k + 1) us from rfl,
          List.getElem?_cons_succ, heq,
          show (u :: us).get ⟨j + 1, hj⟩ = us.get ⟨j, hj'⟩ from rfl]
      exact ih (k + 1) j hj'

theorem normpathChars_head (l : List Char) (h : l.head? = some '/') :
    (normpathChars l).head? = some '/' := by
  have hne : l ≠ [] := by intro e; rw [e] at h; simp at h
  unfold normpathChars
  rw [if_neg hne, h]
  rw [if_pos rfl]
  by_cases h2 : List.take 2 l = ['/', '/'] ∧ List.take 3 l ≠ ['/', '/', '/']
  · rw [if_pos h2]
    have hrep : List.replicate 2 '/' = ['/', '/'] := rfl
    dsimp only
    rw [hrep]
    simp
  · rw [if_neg h2]
    have hrep : List.replicate 1 '/' = ['/'] := rfl
    dsimp only
    rw [hrep]
    simp

theorem isAbs_abspath (cwd p : String) (h : isAbs cwd = true) :
    isAbs (os_path_abspath cwd p) = true := by
  have hcwd : cwd.data.head? = some '/' := by
    simpa [isAbs] using h
  simp only [isAbs, os_path_abspath, decide_eq_true_eq]
  by_cases hp : p.data.head? = some '/'
  · rw [if_pos hp]
    exact normpathChars_head p.data hp
  · rw [if_neg hp]
    apply normpathChars_head
    unfold os_path_join
    rw [if_neg hp]
    obtain ⟨c, t, hct⟩ : ∃ c t, cwd.data = c :: t := by
      cases hd : cwd.data with
      | nil => rw [hd] at hcwd; simp at hcwd
      | cons c t => exact ⟨c, t, rfl⟩
    have hc : c = '/' := by rw [hct] at hcwd; simpa using hcwd
    split
    · simp [String.data_append, hct, hc]
    · simp [String.data_append, hct, hc]

/-- The `file_type` computed by `file()`:
`os.path.splitext(original_file_name)[1].replace('.', '')`. -/
def singleType (contentDisposition : Option String) (file_url : String) : String :=
  removeDots (os_path_splitext (singleOriginalName contentDisposition file_url)).2

theorem fileImpl_ok (cwd uuid : String) (resp : Response) (zv : Bytes → Bool)
    (url : String) (r : FileResult)
    (h : (fileImpl cwd uuid (some resp) zv url).result = Except.ok r) :
    r = { file_path := os_path_abspath cwd
            (os_path_join "job_files" (uuid ++ "." ++ singleType resp.contentDisposition url))
          type := singleType resp.contentDisposition url
          original_name := singleOriginalName resp.contentDisposition url
          extracted_path :=
            if singleType resp.contentDisposition url = "zip" then
              some (os_path_abspath cwd (os_path_join "job_files" uuid))
            else none } := by
  simp only [fileImpl, singleType] at h ⊢
  by_cases hz : removeDots (os_path_splitext (singleOriginalName resp.contentDisposition url)).2 = "zip"
  · rw [if_pos hz] at h ⊢
    by_cases hv : zv resp.content = true
    · rw [if_pos hv] at h
      simp only [] at h
      injection h with h
      exact h.symm
    · rw [if_neg hv] at h
      simp at h
  · rw [if_neg hz] at h ⊢
    simp only [] at h
    injection h with h
    exact h.symm

/-- Characters captured by `(.+)` never include what the scan did not reach:
with no newline present, the greedy capture is the whole remainder. -/
theorem takeCapture_eq_self (l : List Char) (h : '\n' ∉ l) : takeCapture l = l := by
  induction l with
  | nil => rfl
  | cons c cs ih =>
    have hc : ¬ (c = '\n') := by
      intro e
      exact h (by rw [e]; exact List.mem_cons_self _ _)
    have hcs : '\n' ∉ cs := fun m => h (List.mem_cons_of_mem c m)
    rw [takeCapture, if_neg hc, ih hcs]

/-- Modelled from the words of the claim: the remainder of the header value
after the first occurrence of `filename=`, up to the end of the value. -/
def specAfterFirstFilename : List Char → Option (List Char)
  | [] => none
  | c :: cs =>
    if fnPat.isPrefixOf (c :: cs) then some ((c :: cs).drop fnPat.length)
    else specAfterFirstFilename cs

/-- When the header value holds no newline and the first `filename=` is
followed by at least one character, the regex takes exactly the remainder
after that first occurrence. -/
theorem firstFilenameMatch_of_spec (l : List Char) :
    ∀ rem : List Char, '\n' ∉ l →
      specAfterFirstFilename l = some rem → rem ≠ [] →
      firstFilenameMatch l = some rem := by
  induction l with
  | nil => intro rem _ hs _; simp [specAfterFirstFilename] at hs
  | cons c cs ih =>
    intro rem hnl hs hne
    by_cases hp : fnPat.isPrefixOf (c :: cs) = true
    · rw [specAfterFirstFilename, if_pos hp] at hs
      injection hs with hs
      cases hr : rem.head? with
      | none => exact absurd (List.head?_eq_none_iff.mp hr) hne
      | some h0 =>
        have h0mem : h0 ∈ rem := List.mem_of_mem_head? (by rw [hr]; rfl)
        have h0l : h0 ∈ c :: cs := by
          rw [← hs] at h0mem
          exact List.drop_subset _ _ h0mem
        have h0ne : ¬ (h0 = '\n') := by
          intro e; rw [e] at h0l; exact hnl h0l
        have hremnl : '\n' ∉ rem := by
          intro m
          rw [← hs] at m
          exact hnl (List.drop_subset _ _ m)
        rw [firstFilenameMatch, if_pos hp]
        dsimp only
        rw [hs, hr]
        dsimp only
        rw [if_neg h0ne, takeCapture_eq_self rem hremnl]
    · have hnl' : '\n' ∉ cs := fun m => hnl (List.mem_cons_of_mem c m)
      rw [specAfterFirstFilename, if_neg hp] at hs
      rw [firstFilenameMatch, if_neg hp]
      exact ih rem hnl' hs hne

/-- All three backoff attempts raise: the GET itself raises a transport
`RequestException`, or `raise_for_status` raises `HTTPError`. -/
def allAttemptsFail (netU : Nat → Option Response) : Prop :=
  attemptOutcome netU 0 = none ∧ attemptOutcome netU 1 = none ∧ attemptOutcome netU 2 = none

/-! ## Claims -/

/-- C1: for every `job_id` and input list of URLs, `download_files_from_urls`
returns a list of exactly the input's length, and the entry at index `i` is
the result computed for the URL at index `i` (output order matches input
order), for every network behaviour — i.e. regardless of which downloads
fail. -/
theorem c1_batch_length_and_order (cwd : String) (net : Nat → Nat → Option Response)
    (uuid : Nat → String) (job_id : String) (urls : List (Option String)) :
    (download_files_from_urls cwd net uuid job_id (.list urls)).length = urls.length ∧
    ∀ i (hi : i < urls.length),
      (download_files_from_urls cwd net uuid job_id (.list urls))[i]? =
        some (download_file_to_path cwd (downloadDirectory cwd job_id) (uuid i) (net i)
          (urls.get ⟨i, hi⟩)).result := by
  constructor
  · unfold download_files_from_urls batchSlots
    simp only [normalizeUrls]
    rw [List.length_map]
    exact batchSlotsAux_length cwd (downloadDirectory cwd job_id) net uuid urls 0
  · intro i hi
    unfold download_files_from_urls batchSlots
    simp only [normalizeUrls]
    rw [List.getElem?_map,
      batchSlotsAux_getElem? cwd (downloadDirectory cwd job_id) net uuid urls 0 i hi]
    simp [Nat.zero_add]

/-- C1 witness: concrete two-slot batch. -/
theorem c1_batch_length_and_order_witness :
    (download_files_from_urls "/w" (fun _ _ => none) (fun _ => "u") "j"
        (.list [some "http://a", none])).length = 2 ∧
    (download_files_from_urls "/w" (fun _ _ => none) (fun _ => "u") "j"
        (.list [some "http://a", none]))[0]? =
      some (download_file_to_path "/w" (downloadDirectory "/w" "j") "u"
        (fun _ => none) (some "http://a")).result := by
  have h := c1_batch_length_and_order "/w" (fun _ _ => none) (fun _ => "u") "j"
    [some "http://a", none]
  exact ⟨h.1, h.2 0 (by decide)⟩

/-- C2: a URL whose download fails on all three attempts yields `None` for its
slot, writes no file, raises nothing (the slot outcome is an ordinary value),
and every slot's outcome — in particular every other slot's — is a function of
its own URL and its own network behaviour only. -/
theorem c2_failed_url_isolated (cwd : String) (net : Nat → Nat → Option Response)
    (uuid : Nat → String) (job_id : String) (urls : List (Option String))
    (i : Nat) (hi : i < urls.length) (u : String)
    (hu : urls.get ⟨i, hi⟩ = some u)
    (hf : allAttemptsFail (net i)) :
    (batchSlots cwd net uuid job_id (.list urls))[i]? =
      some { result := none, writes := [], requests := 3 } ∧
    ∀ j (hj : j < urls.length),
      (batchSlots cwd net uuid job_id (.list urls))[j]? =
        some (download_file_to_path cwd (downloadDirectory cwd job_id) (uuid j) (net j)
          (urls.get ⟨j, hj⟩)) := by
  have hall : ∀ j (hj : j < urls.length),
      (batchSlots cwd net uuid job_id (.list urls))[j]? =
        some (download_file_to_path cwd (downloadDirectory cwd job_id) (uuid j) (net j)
          (urls.get ⟨j, hj⟩)) := by
    intro j hj
    unfold batchSlots
    simp only [normalizeUrls]
    rw [batchSlotsAux_getElem? cwd (downloadDirectory cwd job_id) net uuid urls 0 j hj]
    simp [Nat.zero_add]
  refine ⟨?_, hall⟩
  rw [hall i hi, hu]
  obtain ⟨h0, h1, h2⟩ := hf
  simp [download_file_to_path, download_file, firstSuccess, h0, h1, h2]

/-- C2 witness: two URLs, the first failing all three attempts. -/
theorem c2_failed_url_isolated_witness :
    (batchSlots "/w" (fun _ _ => none) (fun _ => "u") "j"
        (.list [some "http://a", some "http://b"]))[0]? =
      some { result := none, writes := [], requests := 3 } :=
  (c2_failed_url_isolated "/w" (fun _ _ => none) (fun _ => "u") "j"
    [some "http://a", some "http://b"] 0 (by decide) "http://a" rfl ⟨rfl, rfl, rfl⟩).1

/-- C8: a `None` entry at index `i` of the input yields `None` at index `i` of
the output, and its slot issues zero HTTP requests and writes nothing. -/
theorem c8_none_slot (cwd : String) (net : Nat → Nat → Option Response)
    (uuid : Nat → String) (job_id : String) (urls : List (Option String))
    (i : Nat) (hi : i < urls.length) (hn : urls.get ⟨i, hi⟩ = none) :
    (download_files_from_urls cwd net uuid job_id (.list urls))[i]? = some none ∧
    (batchSlots cwd net uuid job_id (.list urls))[i]? =
      some { result := none, writes := [], requests := 0 } := by
  have hslot : (batchSlots cwd net uuid job_id (.list urls))[i]? =
      some (download_file_to_path cwd (downloadDirectory cwd job_id) (uuid i) (net i)
        (urls.get ⟨i, hi⟩)) := by
    unfold batchSlots
    simp only [normalizeUrls]
    rw [batchSlotsAux_getElem? cwd (downloadDirectory cwd job_id) net uuid urls 0 i hi]
    simp [Nat.zero_add]
  constructor
  · unfold download_files_from_urls
    rw [List.getElem?_map, hslot, hn]
    rfl
  · rw [hslot, hn]
    rfl

/-- C8 witness: a singleton batch whose only entry is `None`. -/
theorem c8_none_slot_witness :
    (download_files_from_urls "/w" (fun _ _ => none) (fun _ => "u") "j"
        (.list [none]))[0]? = some none :=
  (c8_none_slot "/w" (fun _ _ => none) (fun _ => "u") "j" [none] 0 (by decide) rfl).1

/-- C3: for every successful `file(url)` call, `extracted_path` is a non-null
absolute path if and only if `type = "zip"` (assuming, as Python guarantees,
that the process working directory is absolute); otherwise it is null. -/
theorem c3_extracted_iff_zip (cwd uuid : String) (resp : Response) (zv : Bytes → Bool)
    (url : String) (r : FileResult)
    (habs : isAbs cwd = true)
    (h : (fileImpl cwd uuid (some resp) zv url).result = Except.ok r) :
    (∃ p, r.extracted_path = some p ∧ isAbs p = true) ↔ r.type = "zip" := by
  have hr := fileImpl_ok cwd uuid resp zv url r h
  subst hr
  by_cases hz : singleType resp.contentDisposition url = "zip"
  · constructor
    · intro _
      exact hz
    · intro _
      refine ⟨os_path_abspath cwd (os_path_join "job_files" uuid), ?_, ?_⟩
      · dsimp only
        rw [if_pos hz]
      · exact isAbs_abspath cwd _ habs
  · constructor
    · intro hex
      obtain ⟨p, hp, _⟩ := hex
      dsimp only at hp
      rw [if_neg hz] at hp
      exact absurd hp (by simp)
    · intro hty
      exact absurd hty hz

/-- C3 witness: a zip response with an absolute working directory. -/
theorem c3_extracted_iff_zip_witness :
    isAbs "/w" = true ∧
    ((∃ p, (⟨"/w/job_files/u1.zip", "zip", "a.zip", some "/w/job_files/u1"⟩ :
        FileResult).extracted_path = some p ∧ isAbs p = true) ↔
      (⟨"/w/job_files/u1.zip", "zip", "a.zip", some "/w/job_files/u1"⟩ :
        FileResult).type = "zip") :=
  ⟨by decide,
    c3_extracted_iff_zip "/w" "u1" ⟨200, none, [0]⟩ (fun _ => true) "http://x/a.zip"
      ⟨"/w/job_files/u1.zip", "zip", "a.zip", some "/w/job_files/u1"⟩
      (by decide) (by decide)⟩

/-- C4: the claim that the saved batch file name carries the extension of the
`Content-Disposition` filename is wrong on this code: `dict(msg.items())` maps
header *names*, never the `filename` parameter, so `params.get('filename', '')`
is always `''` and the computed extension is always empty — here evaluated at a
well-formed header carrying `filename="picture.png"`. -/
theorem c4_extension_always_empty :
    batchFileExtension (some "attachment; filename=\"picture.png\"") = "" ∧
    download_file (fun _ =>
        some ⟨200, some "attachment; filename=\"picture.png\"", [7]⟩) =
      some ([7], "") := by
  constructor
  · decide
  · decide

/-- C5 counterexample: with `Content-Disposition: attachment; filename="data.json"`,
the returned `type` is not `"json"` — the regex capture keeps the surrounding
quotes, so `os.path.splitext` yields `.json"` and `type` becomes `json"`. -/
theorem c5_counterexample_type_keeps_quote :
    (fileImpl "/w" "u1" (some ⟨200, some "attachment; filename=\"data.json\"", [1, 2]⟩)
        (fun _ => true) "http://h/f").result.toOption.map FileResult.type ≠
      some "json" := by
  decide

/-- C5 (amended): with `Content-Disposition: attachment; filename="data.json"`,
the record has `type = "json\""` (the trailing quote of the raw regex match is
carried into the type) and `original_name = "\"data.json\""`, which contains
the text `data.json"`. -/
theorem c5_type_and_name_with_quote :
    (fileImpl "/w" "u1" (some ⟨200, some "attachment; filename=\"data.json\"", [1, 2]⟩)
        (fun _ => true) "http://h/f").result =
      Except.ok ⟨"/w/job_files/u1.json\"", "json\"", "\"data.json\"", none⟩ ∧
    "data.json\"".data <:+: "\"data.json\"".data := by
  constructor
  · decide
  · decide

/-- C6 counterexample: for a URL ending in `A.PNG` (no header), the returned
`type` is `"PNG"`, not the lowercase `"png"` the claim requires — the code
never lowercases the extension. -/
theorem c6_counterexample_uppercase :
    (fileImpl "/w" "u1" (some ⟨200, none, [0]⟩) (fun _ => true)
        "http://x/y/A.PNG").result =
      Except.ok ⟨"/w/job_files/u1.PNG", "PNG", "A.PNG", none⟩ ∧
    ("PNG" : String) ≠ "png" := by
  constructor
  · decide
  · decide

/-- C6 (amended): for every successful `file(url)` call, `type` equals
`original_name`'s extension with its dot removed and the case preserved (not
lowercased); it is the empty string when there is no extension. -/
theorem c6_type_is_extension_sans_dots (cwd uuid : String) (resp : Response)
    (zv : Bytes → Bool) (url : String) (r : FileResult)
    (h : (fileImpl cwd uuid (some resp) zv url).result = Except.ok r) :
    r.type = removeDots (os_path_splitext r.original_name).2 := by
  have hr := fileImpl_ok cwd uuid resp zv url r h
  subst hr
  rfl

/-- C6 witness: a `.csv` URL, with the extension kept as is. -/
theorem c6_type_is_extension_sans_dots_witness :
    (⟨"/w/job_files/u1.csv", "csv", "report.csv", none⟩ : FileResult).type =
      removeDots (os_path_splitext
        (⟨"/w/job_files/u1.csv", "csv", "report.csv", none⟩ : FileResult).original_name).2 :=
  c6_type_is_extension_sans_dots "/w" "u1" ⟨200, none, [1]⟩ (fun _ => true)
    "http://x/y/report.csv" ⟨"/w/job_files/u1.csv", "csv", "report.csv", none⟩ (by decide)

/-- C7 counterexample: `file()` never calls `raise_for_status`, so a non-2xx
status is not an error for the call: a 404 response is processed normally and
the call returns a record. -/
theorem c7_counterexample_status_not_fatal :
    (fileImpl "/w" "u1" (some ⟨404, none, [1]⟩) (fun _ => true)
        "http://x/y/report.csv").result =
      Except.ok ⟨"/w/job_files/u1.csv", "csv", "report.csv", none⟩ := by
  decide

/-- C7 (amended): `file(url)` performs exactly one HTTP GET with no retry; a
transport error propagates as a fatal error for the call; the response status
code is never consulted, so a non-2xx response status does not raise — the
body is processed like any other response. -/
theorem c7_single_get_no_retry_status_ignored :
    (∀ cwd uuid zv url, fileImpl cwd uuid none zv url =
      { result := Except.error (), requests := [url], writes := [] }) ∧
    (∀ cwd uuid resp zv url,
      (fileImpl cwd uuid (some resp) zv url).requests = [url]) ∧
    (∀ cwd uuid resp zv url s,
      fileImpl cwd uuid (some { resp with status := s }) zv url =
        fileImpl cwd uuid (some resp) zv url) := by
  refine ⟨fun _ _ _ _ => rfl, ?_, ?_⟩
  · intro cwd uuid resp zv url
    simp only [fileImpl]
    split
    · split
      · rfl
      · rfl
    · rfl
  · intro cwd uuid resp zv url s
    cases resp
    rfl

/-- C9: when the response carries no `Content-Disposition` header,
`original_name` is the last path segment of the URL
(`os.path.basename(urlparse(url).path)`); in particular
`http://x/y/report.csv` yields `original_name = "report.csv"`,
`type = "csv"` and a null `extracted_path`. -/
theorem c9_name_from_url :
    (∀ cwd uuid resp zv url r, resp.contentDisposition = none →
      (fileImpl cwd uuid (some resp) zv url).result = Except.ok r →
      r.original_name = os_path_basename (urlparsePath url)) ∧
    (fileImpl "/w" "u1" (some ⟨200, none, [1]⟩) (fun _ => true)
        "http://x/y/report.csv").result =
      Except.ok ⟨"/w/job_files/u1.csv", "csv", "report.csv", none⟩ := by
  constructor
  · intro cwd uuid resp zv url r hcd h
    have hr := fileImpl_ok cwd uuid resp zv url r h
    subst hr
    show singleOriginalName resp.contentDisposition url = _
    rw [hcd]
    rfl
  · decide

/-- C9 witness: the concrete URL of the claim. -/
theorem c9_name_from_url_witness :
    (⟨"/w/job_files/u1.csv", "csv", "report.csv", none⟩ : FileResult).original_name =
      os_path_basename (urlparsePath "http://x/y/report.csv") :=
  c9_name_from_url.1 "/w" "u1" ⟨200, none, [1]⟩ (fun _ => true) "http://x/y/report.csv"
    ⟨"/w/job_files/u1.csv", "csv", "report.csv", none⟩ rfl (by decide)

/-- C10 counterexample: the header value `attachment; filename=` contains
`filename=` with an empty remainder; `(.+)` then fails to match, the code
falls back to the URL, and `original_name` is `report.csv`, not the remainder
(the empty string). -/
theorem c10_counterexample_empty_remainder :
    specAfterFirstFilename "attachment; filename=".data = some [] ∧
    (fileImpl "/w" "u1" (some ⟨200, some "attachment; filename=", [1]⟩)
        (fun _ => true) "http://x/y/report.csv").result =
      Except.ok ⟨"/w/job_files/u1.csv", "csv", "report.csv", none⟩ ∧
    ("report.csv" : String) ≠ String.mk [] := by
  refine ⟨by decide, by decide, by decide⟩

/-- C10 (amended): when the `Content-Disposition` value contains no newline
and its first occurrence of `filename=` is followed by at least one character,
`original_name` is the entire remainder of the value after that occurrence, up
to the end of the value — including surrounding quotes and any subsequent
parameters. -/
theorem c10_name_is_remainder_after_first_filename (cwd uuid : String) (resp : Response)
    (zv : Bytes → Bool) (url : String) (cd : String) (rem : List Char) (r : FileResult)
    (hcd : resp.contentDisposition = some cd)
    (hnl : '\n' ∉ cd.data)
    (hs : specAfterFirstFilename cd.data = some rem)
    (hne : rem ≠ [])
    (h : (fileImpl cwd uuid (some resp) zv url).result = Except.ok r) :
    r.original_name = String.mk rem := by
  have hr := fileImpl_ok cwd uuid resp zv url r h
  subst hr
  have hm := firstFilenameMatch_of_spec cd.data rem hnl hs hne
  show singleOriginalName resp.contentDisposition url = _
  rw [hcd]
  simp [singleOriginalName, hm]

/-- C10 witness: quotes and a trailing `; size=100` parameter are kept. -/
theorem c10_name_is_remainder_witness :
    (⟨"/w/job_files/u1.txt\"; size=100", "txt\"; size=100", "\"a.txt\"; size=100", none⟩ :
        FileResult).original_name =
      String.mk "\"a.txt\"; size=100".data :=
  c10_name_is_remainder_after_first_filename "/w" "u1"
    ⟨200, some "attachment; filename=\"a.txt\"; size=100", [1]⟩ (fun _ => true)
    "http://h/f" "attachment; filename=\"a.txt\"; size=100" "\"a.txt\"; size=100".data
    ⟨"/w/job_files/u1.txt\"; size=100", "txt\"; size=100", "\"a.txt\"; size=100", none⟩
    rfl (by decide) (by decide) (by decide) (by decide)
